import Mathlib

/-!
Verification of the AI-Guardian surveillance core against its design
specification.

The Lean definitions below are a shallow embedding of the Python sources:

* `src/detector/ai_detector.py` — detection filtering (`_filter_detections`),
  greedy nearest-neighbour tracking (`_update_tracking`) and the
  suspicious-activity rules (`detect_suspicious_activity`);
* `src/alerts/alert_manager.py` — alert records, audio escalation
  (`_trigger_audio_alert`), resolution (`resolve_alert`), history
  (`get_alert_history`) and statistics (`get_alert_stats`);
* `src/utils/camera_manager.py` — camera registration (`initialize_camera`)
  and capture start (`start_capture`).

Modelling conventions:

* Python floats for confidences are modelled as rationals (`ℚ`); timestamps
  (both `time.time()` and `datetime.now()`) are modelled as integer seconds.
* Euclidean distances are compared through their squares, which is exact:
  for nonnegative reals, `Real.sqrt a < c ↔ a < c ^ 2` (see the lemma
  `sqrt_lt_hundred` below for the tracker's threshold of 100).
* Python dicts are modelled as association lists in insertion order, which
  is exactly the iteration order Python guarantees; dict assignment replaces
  the value in place when the key exists and appends otherwise (`setTrack`,
  `setRunning`), and `del` keeps the order of the remaining entries.
* Free-text `description` fields of suspicious activities (formatted float
  strings, used only for display/logging) are elided from the model.
-/

/-- Detection record, from the dataclass `Detection` in ai_detector.py:
class label, confidence, bounding box, centre point, timestamp and the
optional track id filled in by `_update_tracking`. -/
structure Detection where
  class_name : String
  confidence : ℚ
  bbox : Int × Int × Int × Int
  center : Int × Int
  timestamp : Int
  track_id : Option Nat
deriving DecidableEq, Repr

/-- Value stored in the tracker's `tracked_objects` dict for one track.
The Python code stores a plain dict with keys `class`, `first_seen`,
`last_seen`, `last_center`, `confidence`; the key `movement_history` is
read by `detect_suspicious_activity` but is never written anywhere, so it
is modelled as an `Option` that the tracking code always leaves at `none`
(mirroring the absent dict key). -/
structure TrackInfo where
  cls : String
  first_seen : Int
  last_seen : Int
  last_center : Int × Int
  confidence : ℚ
  movement_history : Option (List (Int × Int))
deriving DecidableEq, Repr

/-- Suspicious-activity record from the dataclass `SuspiciousActivity`
(the free-text `description` is elided). -/
structure Activity where
  activity_type : String
  confidence : ℚ
  location : Int × Int
  timestamp : Int
deriving DecidableEq, Repr

/-- Squared Euclidean distance between two integer points.  The Python code
compares `np.sqrt ((dx)^2 + (dy)^2)` against thresholds; comparing the
squares against the squared thresholds is exact. -/
def sqDist (p q : Int × Int) : Int :=
  (p.1 - q.1) ^ 2 + (p.2 - q.2) ^ 2

/-- One iteration of the best-match search loop in `_update_tracking`:
given the best candidate so far (`acc`, a pair of track id and squared
distance) and the next entry of `tracked_objects`, keep the entry if its
class matches and it strictly improves the minimum while being under the
hard-coded association threshold of 100 pixels (squared: 10000). -/
def considerTrack (det : Detection) (acc : Option (Nat × Int)) (t : Nat × TrackInfo) :
    Option (Nat × Int) :=
  if t.2.cls = det.class_name then
    let d2 := sqDist det.center t.2.last_center
    match acc with
    | none => if d2 < 10000 then some (t.1, d2) else none
    | some (_, bd2) => if d2 < bd2 ∧ d2 < 10000 then some (t.1, d2) else acc
  else acc

/-- The best-match search of `_update_tracking`: fold the loop body over the
live tracks in dict (insertion) order, starting from no candidate
(`best_match = None`, `min_distance = inf`). -/
def findBestMatch (tracks : List (Nat × TrackInfo)) (det : Detection) :
    Option (Nat × Int) :=
  tracks.foldl (considerTrack det) none

/-- Dict lookup `tracked_objects.get(track_id)`. -/
def lookupTrack : List (Nat × TrackInfo) → Nat → Option TrackInfo
  | [], _ => none
  | p :: ps, tid => if p.1 = tid then some p.2 else lookupTrack ps tid

/-- Dict assignment `tracked_objects[tid] = info`: replace the value in
place when the key exists, append otherwise. -/
def setTrack : List (Nat × TrackInfo) → Nat → TrackInfo → List (Nat × TrackInfo)
  | [], tid, info => [(tid, info)]
  | p :: ps, tid, info =>
    if p.1 = tid then (tid, info) :: ps else p :: setTrack ps tid info

/-- The `.update({...})` call on a matched track: overwrite `last_center`,
`last_seen` and `confidence`, leaving `class`, `first_seen` and the (never
written) `movement_history` untouched. -/
def updateMatched (tracks : List (Nat × TrackInfo)) (tid : Nat) (det : Detection)
    (now : Int) : List (Nat × TrackInfo) :=
  tracks.map fun p =>
    if p.1 = tid then
      (p.1, { p.2 with last_center := det.center, last_seen := now,
                       confidence := det.confidence })
    else p

/-- Processing of one detection inside `_update_tracking`.  The state is the
current track table together with the detections already annotated this
tick.  A matched detection updates its track (Python tests `if best_match:`,
which is also false for a track id of 0, hence the extra guard); otherwise a
new track is allocated under id `len(tracked_objects) + 1` — note this id is
derived from the current table size, not from a monotonic counter. -/
def detStep (now : Int) (st : List (Nat × TrackInfo) × List Detection)
    (det : Detection) : List (Nat × TrackInfo) × List Detection :=
  let newTrack : List (Nat × TrackInfo) × List Detection :=
    let nid := st.1.length + 1
    (setTrack st.1 nid
      { cls := det.class_name, first_seen := now, last_seen := now,
        last_center := det.center, confidence := det.confidence,
        movement_history := none },
     st.2 ++ [{ det with track_id := some nid }])
  match findBestMatch st.1 det with
  | some (tid, _) =>
    if tid = 0 then newTrack
    else (updateMatched st.1 tid det now, st.2 ++ [{ det with track_id := some tid }])
  | none => newTrack

/-- The body of `_update_tracking`: process the detections in order, then
evict every track whose inactivity `now - last_seen` exceeds the hard-coded
5-second timeout.  Returns the new track table and the annotated
detections. -/
def updateTracking (dets : List Detection) (tracks : List (Nat × TrackInfo))
    (now : Int) : List (Nat × TrackInfo) × List Detection :=
  let st := dets.foldl (detStep now) (tracks, [])
  (st.1.filter fun p => decide (now - p.2.last_seen ≤ 5), st.2)

/-- A whole run of the tracker from its initial empty table: a list of ticks,
each a timestamp paired with that tick's detections. -/
def updateRun (ticks : List (Int × List Detection)) : List (Nat × TrackInfo) :=
  ticks.foldl (fun tr t => (updateTracking t.2 tr t.1).1) []

/-- Exact integer test for `200 < Real.sqrt a + Real.sqrt b` (with `a`, `b`
the squared segment lengths): the movement-threshold comparison
`total_distance > 200` of the rapid-movement rule, which under its length
guard always sums exactly two square roots.  Justified by
`sqrtSumGt200_iff` below. -/
def sqrtSumGt200 (a b : Int) : Bool :=
  decide (40000 < a + b) || decide ((40000 - (a + b)) ^ 2 < 4 * (a * b))

/-- The loitering rule of `detect_suspicious_activity` applied to one
person-class detection: a detection carrying a (truthy) track id whose
track has been alive for more than `loitering_time` yields a loitering
activity (confidence 0.8) at the detection's centre. -/
def loiterFrom (tracks : List (Nat × TrackInfo)) (now loitering_time : Int)
    (d : Detection) : Option Activity :=
  match d.track_id with
  | none => none
  | some tid =>
    if tid = 0 then none
    else
      match lookupTrack tracks tid with
      | none => none
      | some info =>
        if loitering_time < now - info.first_seen then
          some { activity_type := "loitering", confidence := (8 : ℚ)/10,
                 location := d.center, timestamp := now }
        else none

/-- Centroid of the crowd: Python's floor division `//` of the coordinate
sums by the number of person detections. -/
def crowdCenter (persons : List Detection) : Int × Int :=
  (Int.fdiv ((persons.map fun d => d.center.1).sum) persons.length,
   Int.fdiv ((persons.map fun d => d.center.2).sum) persons.length)

/-- The rapid-movement rule of `detect_suspicious_activity` applied to one
person-class detection: requires a truthy track id, a `movement_history`
entry on the track (which `_update_tracking` never writes), more than two
recorded points, and the summed length of the two segments over the last
three points to exceed 200. -/
def rapidFrom (tracks : List (Nat × TrackInfo)) (now : Int) (d : Detection) :
    Option Activity :=
  match d.track_id with
  | none => none
  | some tid =>
    if tid = 0 then none
    else
      match lookupTrack tracks tid with
      | none => none
      | some info =>
        match info.movement_history with
        | none => none
        | some history =>
          if 2 < history.length then
            match history.drop (history.length - 3) with
            | p1 :: p2 :: p3 :: [] =>
              if sqrtSumGt200 (sqDist p2 p1) (sqDist p3 p2) then
                some { activity_type := "rapid_movement", confidence := (7 : ℚ)/10,
                       location := d.center, timestamp := now }
              else none
            | _ => none
          else none

/-- The body of `detect_suspicious_activity`: filter the person-class
detections once, evaluate loitering per person detection, then the crowd
rule, then rapid movement, returning the activities in that order.  When
the crowd guard `len(person_detections) >= crowd_threshold` passes with
zero person detections (only possible for a threshold of 0), the Python
code raises `ZeroDivisionError` computing the centroid; the surrounding
`except` swallows it and the function returns only the activities
accumulated so far (the loitering ones), skipping both the crowd and the
rapid-movement rules — hence the inner emptiness test. -/
def detectSuspiciousActivity (dets : List Detection)
    (tracks : List (Nat × TrackInfo)) (now loitering_time : Int)
    (crowd_threshold : Nat) : List Activity :=
  let persons := dets.filter fun d => d.class_name == "person"
  let loiter := persons.filterMap (loiterFrom tracks now loitering_time)
  if crowd_threshold ≤ persons.length then
    if persons.length = 0 then loiter
    else
      (loiter ++ [{ activity_type := "crowd_detected", confidence := (9 : ℚ)/10,
                    location := crowdCenter persons, timestamp := now }])
        ++ persons.filterMap (rapidFrom tracks now)
  else loiter ++ persons.filterMap (rapidFrom tracks now)

/-- Filtering configuration of `AIDetector` (the fields `_filter_detections`
reads). -/
structure DetectorConfig where
  confidence_threshold : ℚ
  max_detections : Nat
  classes_of_interest : List String
deriving DecidableEq, Repr

/-- Predicate of the filtering loop in `_filter_detections`: a detection is
kept when its confidence is not below the threshold and, unless the
allow-list is empty (Python: an empty list is falsy, allowing everything),
its class label is in the allow-list. -/
def passesFilter (cfg : DetectorConfig) (d : Detection) : Bool :=
  decide (cfg.confidence_threshold ≤ d.confidence)
    && (cfg.classes_of_interest.isEmpty
        || cfg.classes_of_interest.contains d.class_name)

/-- Comparison used by `_filter_detections` when truncating:
`sorted(filtered, key=lambda x: x.confidence, reverse=True)` sorts by
descending confidence. -/
def confDesc (a b : Detection) : Bool :=
  decide (b.confidence ≤ a.confidence)

/-- The body of `_filter_detections`: keep the detections passing the
confidence and allow-list checks and, when strictly more than
`max_detections` remain, keep only the first `max_detections` of the
descending-confidence sort. -/
def filterDetections (cfg : DetectorConfig) (dets : List Detection) :
    List Detection :=
  let filtered := dets.filter (passesFilter cfg)
  if cfg.max_detections < filtered.length then
    (filtered.mergeSort confDesc).take cfg.max_detections
  else filtered

/-- Alert record from the dataclass `Alert` in alert_manager.py. -/
structure Alert where
  alert_id : String
  alert_type : String
  message : String
  severity : String
  timestamp : Int
  location : Option (Int × Int)
  confidence : ℚ
  resolved : Bool
  resolution_time : Option Int
deriving DecidableEq, Repr

/-- Substring test on character lists: Python's `needle in hay`. -/
def containsChars (needle : List Char) : List Char → Bool
  | [] => needle.isEmpty
  | c :: rest => needle.isPrefixOf (c :: rest) || containsChars needle rest

/-- The sound-selection chain of `_trigger_audio_alert`: severity high or
critical selects the emergency sound, medium the alert sound, otherwise the
lowered alert type is searched for the substrings "emergency" and
"suspicious", with "detection" as the default. -/
def selectSoundType (a : Alert) : String :=
  if a.severity = "high" ∨ a.severity = "critical" then "emergency"
  else if a.severity = "medium" then "alert"
  else if containsChars "emergency".toList a.alert_type.toLower.toList then "emergency"
  else if containsChars "suspicious".toList a.alert_type.toLower.toList then "alert"
  else "detection"

/-- Repetition count of `_trigger_audio_alert`: 3 for critical severity,
2 for high, 1 otherwise. -/
def alertRepetitions (severity : String) : Nat :=
  if severity = "critical" then 3 else if severity = "high" then 2 else 1

/-- Observable actions of the audio sink. -/
inductive AudioEvent where
  | play
  | pause
deriving DecidableEq, Repr

/-- Remaining iterations of the `play_sound` loop: each iteration invokes
`sound.play()` and, when the total repetition count exceeds one, sleeps for
half a second. -/
def playSoundLoop (reps : Nat) : Nat → List AudioEvent
  | 0 => []
  | n + 1 =>
    (AudioEvent.play :: if 1 < reps then [AudioEvent.pause] else [])
      ++ playSoundLoop reps n

/-- The full `play_sound` closure of `_trigger_audio_alert` for a given
repetition count. -/
def playSoundEvents (reps : Nat) : List AudioEvent :=
  playSoundLoop reps reps

/-- The observable audio behaviour of `_trigger_audio_alert`: when the
selected sound type has been loaded, the play loop runs with the
severity-determined repetition count; otherwise nothing is played. -/
def triggerAudioAlert (a : Alert) (loadedSounds : List String) : List AudioEvent :=
  if selectSoundType a ∈ loadedSounds then
    playSoundEvents (alertRepetitions a.severity)
  else []

/-- State of the `AlertManager` relevant to alert resolution.  Python keeps
the very same `Alert` object in `active_alerts` and in `alert_history`, so
the model uses a heap (`store`) keyed by alert id, with the active dict and
the history holding references (ids) into it. -/
structure AMState where
  store : List (String × Alert)
  activeIds : List String
  historyIds : List String
deriving DecidableEq, Repr

/-- Mutation of the alert object performed by `resolve_alert`: set
`resolved` and stamp `resolution_time`. -/
def setResolved (store : List (String × Alert)) (aid : String) (now : Int) :
    List (String × Alert) :=
  store.map fun p =>
    if p.1 = aid then (p.1, { p.2 with resolved := true, resolution_time := some now })
    else p

/-- The body of `resolve_alert`: when the id is in `active_alerts`, mark the
alert resolved, stamp the resolution time and delete the id from the active
dict; otherwise do nothing. -/
def resolveAlert (s : AMState) (aid : String) (now : Int) : AMState :=
  if aid ∈ s.activeIds then
    { s with store := setResolved s.store aid now,
             activeIds := s.activeIds.erase aid }
  else s

/-- The body of `get_alert_history`: the Python expression
`self.alert_history[-limit:] if self.alert_history else []`.  A slice with
negative start `-limit` takes the last `limit` entries — except that for
`limit = 0` the start index `-0` is just `0`, so the slice is the whole
list. -/
def getAlertHistory (history : List Alert) (limit : Nat) : List Alert :=
  if history.isEmpty then []
  else if limit = 0 then history
  else history.drop (history.length - limit)

/-- Counter dict built by `get_alert_stats` (increment the key, inserting
it at count 1 when absent). -/
def bumpCount : List (String × Nat) → String → List (String × Nat)
  | [], k => [(k, 1)]
  | p :: ps, k => if p.1 = k then (p.1, p.2 + 1) :: ps else p :: bumpCount ps k

/-- Statistics record returned by `get_alert_stats`. -/
structure AlertStats where
  total_alerts : Nat
  active_alerts : Nat
  alerts_by_type : List (String × Nat)
  alerts_by_severity : List (String × Nat)
  recent_alerts : Nat
deriving DecidableEq, Repr

/-- The body of `get_alert_stats`.  The "last hour" count evaluates Python's
`(datetime.now() - a.timestamp).seconds < 3600`: `timedelta.seconds` is the
day-wrapped seconds component of the normalized duration, i.e. the total
elapsed seconds modulo 86400 (floor modulus), not the total age. -/
def getAlertStats (active : List String) (history : List Alert) (now : Int) :
    AlertStats :=
  { total_alerts := history.length
    active_alerts := active.length
    alerts_by_type := history.foldl (fun m a => bumpCount m a.alert_type) []
    alerts_by_severity := history.foldl (fun m a => bumpCount m a.severity) []
    recent_alerts :=
      (history.filter fun a => decide ((now - a.timestamp).emod 86400 < 3600)).length }

/-- State of the `CameraManager` relevant to initialization and capture
start.  The per-camera dicts are modelled by the lists of their keys (their
values — capture handles, queues, lock objects — are opaque); `is_running`
keeps its boolean values and `released` records capture handles on which
`release()` has been called. -/
structure CMState where
  cameras : List Int
  frame_queues : List Int
  current_frames : List Int
  frame_locks : List Int
  is_running : List (Int × Bool)
  capture_threads : List Int
  released : List Int
deriving DecidableEq, Repr

/-- Key registration in a per-camera dict: dict assignment keeps an existing
key in place and appends a new one. -/
def insertId (l : List Int) (cid : Int) : List Int :=
  if cid ∈ l then l else l ++ [cid]

/-- Dict assignment `is_running[cid] = b`. -/
def setRunning : List (Int × Bool) → Int → Bool → List (Int × Bool)
  | [], cid, b => [(cid, b)]
  | p :: ps, cid, b =>
    if p.1 = cid then (cid, b) :: ps else p :: setRunning ps cid b

/-- Dict read `is_running.get(cid, False)`. -/
def lookupRunning : List (Int × Bool) → Int → Bool
  | [], _ => false
  | p :: ps, cid => if p.1 = cid then p.2 else lookupRunning ps cid

/-- The body of `initialize_camera`, parameterized by the device behaviour:
whether the device opens and whether the initial test-frame read succeeds.
On a successful open, the camera id is registered in all five per-camera
tables BEFORE the test read; when the test read then fails, the handle is
released and False is returned, but none of the registrations are rolled
back. -/
def initializeCamera (s : CMState) (cid : Int) (opens testRead : Bool) :
    CMState × Bool :=
  if !opens then (s, false)
  else
    let s1 : CMState :=
      { s with cameras := insertId s.cameras cid
               frame_queues := insertId s.frame_queues cid
               current_frames := insertId s.current_frames cid
               frame_locks := insertId s.frame_locks cid
               is_running := setRunning s.is_running cid false }
    if !testRead then ({ s1 with released := cid :: s1.released }, false)
    else (s1, true)

/-- The body of `start_capture`: fail when the camera id was never
registered, report success when capture already runs, otherwise flag the
camera as running, spawn the capture thread and report success. -/
def startCapture (s : CMState) (cid : Int) : CMState × Bool :=
  if cid ∉ s.cameras then (s, false)
  else if lookupRunning s.is_running cid then (s, true)
  else
    ({ s with is_running := setRunning s.is_running cid true
              capture_threads := insertId s.capture_threads cid }, true)

lemma mem_insertId (l : List Int) (cid : Int) : cid ∈ insertId l cid := by
  unfold insertId
  split
  · assumption
  · simp

lemma lookupRunning_setRunning (l : List (Int × Bool)) (cid : Int) (b : Bool) :
    lookupRunning (setRunning l cid b) cid = b := by
  induction l with
  | nil => simp [setRunning, lookupRunning]
  | cons p ps ih =>
    by_cases hp : p.1 = cid
    · simp [setRunning, lookupRunning, hp]
    · simp [setRunning, lookupRunning, hp, ih]

/-- C10: when the camera device opens but the initial test-frame capture
fails, `initialize_camera` returns False and releases the handle, yet the
camera id stays registered in `cameras`, `frame_queues`, `current_frames`,
`frame_locks` and `is_running` (no rollback), so a subsequent
`start_capture` for that id reports success. -/
theorem initFailure_stateRemains (s : CMState) (cid : Int) :
    (initializeCamera s cid true false).2 = false
    ∧ cid ∈ (initializeCamera s cid true false).1.released
    ∧ cid ∈ (initializeCamera s cid true false).1.cameras
    ∧ cid ∈ (initializeCamera s cid true false).1.frame_queues
    ∧ cid ∈ (initializeCamera s cid true false).1.current_frames
    ∧ cid ∈ (initializeCamera s cid true false).1.frame_locks
    ∧ lookupRunning (initializeCamera s cid true false).1.is_running cid = false
    ∧ (startCapture (initializeCamera s cid true false).1 cid).2 = true := by
  have hmem := mem_insertId s.cameras cid
  have hrun := lookupRunning_setRunning s.is_running cid false
  refine ⟨rfl, by simp [initializeCamera], ?_, ?_, ?_, ?_, ?_, ?_⟩
  · simpa [initializeCamera] using hmem
  · simpa [initializeCamera] using mem_insertId s.frame_queues cid
  · simpa [initializeCamera] using mem_insertId s.current_frames cid
  · simpa [initializeCamera] using mem_insertId s.frame_locks cid
  · simpa [initializeCamera] using hrun
  · simp [initializeCamera, startCapture, hmem, hrun]

/-- Sample alert used for concrete runs: created at time 0. -/
def dayOldAlert : Alert :=
  { alert_id := "suspicious_activity_0_1", alert_type := "suspicious_activity",
    message := "Person loitering detected", severity := "medium", timestamp := 0,
    location := none, confidence := (8 : ℚ)/10, resolved := false,
    resolution_time := none }

/-- C4: evaluation of `get_alert_stats` at a concrete failing input.  An
alert created exactly one whole day before the query is counted in
`recent_alerts` — the code evaluates the day-wrapped
`timedelta.seconds` (here `86400 mod 86400 = 0 < 3600`) — although its
total age, 86400 seconds, is not less than 3600 seconds, so the alert is
not within the last hour. -/
theorem recentAlerts_dayOld :
    (getAlertStats [] [dayOldAlert] 86400).recent_alerts = 1
    ∧ ¬ ((86400 : Int) - dayOldAlert.timestamp < 3600) := by
  decide

/-- C5 counterexample: `get_alert_history` with limit 0 on a one-element
history returns the whole history, not the empty list the claim
requires (`history[-0:]` is `history[0:]`). -/
theorem alertHistoryZero_cex :
    getAlertHistory [dayOldAlert] 0 = [dayOldAlert]
    ∧ [dayOldAlert] ≠ ([] : List Alert) := by
  constructor
  · rfl
  · simp

/-- C5 (amended): for every positive limit, `get_alert_history` returns a
suffix of the history (the most recent entries, in order) of length
`min limit (length history)`; for limit 0 it returns the entire history. -/
theorem getAlertHistory_spec (h : List Alert) (l : Nat) :
    (1 ≤ l → ∃ pre, pre ++ getAlertHistory h l = h
        ∧ (getAlertHistory h l).length = min l h.length)
    ∧ getAlertHistory h 0 = h := by
  constructor
  · intro hl
    have hne : l ≠ 0 := by omega
    by_cases hh : h.isEmpty
    · have : h = [] := List.isEmpty_iff.mp hh
      subst this
      exact ⟨[], by simp [getAlertHistory], by simp [getAlertHistory]⟩
    · have heq : getAlertHistory h l = h.drop (h.length - l) := by
        simp [getAlertHistory, hh, hne]
      refine ⟨h.take (h.length - l), ?_, ?_⟩
      · rw [heq, List.take_append_drop]
      · rw [heq, List.length_drop]
        omega
  · by_cases hh : h.isEmpty
    · have : h = [] := List.isEmpty_iff.mp hh
      subst this
      simp [getAlertHistory]
    · simp [getAlertHistory, hh]

/-- C5 witness: concrete instance of the amended history property. -/
theorem getAlertHistory_spec_witness :
    ∃ pre, pre ++ getAlertHistory [dayOldAlert, dayOldAlert] 1 = [dayOldAlert, dayOldAlert]
      ∧ (getAlertHistory [dayOldAlert, dayOldAlert] 1).length
          = min 1 [dayOldAlert, dayOldAlert].length :=
  (getAlertHistory_spec [dayOldAlert, dayOldAlert] 1).1 (by decide)

/-- Sample alert-manager state with one active alert. -/
def sampleAMState : AMState :=
  { store := [("suspicious_activity_0_1", dayOldAlert)],
    activeIds := ["suspicious_activity_0_1"],
    historyIds := ["suspicious_activity_0_1"] }

/-- C9: `resolve_alert` is idempotent — a second resolution of the same id
leaves the whole manager state (alert store, active set, history) exactly
as after the first — and resolving an id that is not active (unknown or
already resolved) changes nothing.  The `Nodup` hypothesis holds for the
real state because `active_alerts` is a dict keyed by the id. -/
theorem resolveAlert_idempotent (s : AMState) (aid : String) (n1 n2 : Int)
    (hnd : s.activeIds.Nodup) :
    resolveAlert (resolveAlert s aid n1) aid n2 = resolveAlert s aid n1
    ∧ (aid ∉ s.activeIds → resolveAlert s aid n1 = s) := by
  constructor
  · by_cases hm : aid ∈ s.activeIds
    · have h1 : resolveAlert s aid n1 =
          { s with store := setResolved s.store aid n1,
                   activeIds := s.activeIds.erase aid } := by
        simp [resolveAlert, hm]
      rw [h1]
      have hout : aid ∉ s.activeIds.erase aid := hnd.not_mem_erase
      simp [resolveAlert, hout]
    · simp [resolveAlert, hm]
  · intro hm
    simp [resolveAlert, hm]

/-- C9 witness: concrete double resolution. -/
theorem resolveAlert_idempotent_witness :
    resolveAlert (resolveAlert sampleAMState "suspicious_activity_0_1" 5)
        "suspicious_activity_0_1" 6
      = resolveAlert sampleAMState "suspicious_activity_0_1" 5 :=
  (resolveAlert_idempotent sampleAMState "suspicious_activity_0_1" 5 6 (by decide)).1

/-- C8: for an alert whose selected sound type is loaded, the audio sink
plays the sound exactly 3 times for critical severity, 2 times for high and
once for medium or low, with a pause separating consecutive plays whenever
more than one repetition is played (the event lists are explicit). -/
theorem audioRepetitions_spec (a : Alert) (loaded : List String)
    (h : selectSoundType a ∈ loaded) :
    (a.severity = "critical" →
      triggerAudioAlert a loaded
        = [AudioEvent.play, AudioEvent.pause, AudioEvent.play, AudioEvent.pause,
           AudioEvent.play, AudioEvent.pause])
    ∧ (a.severity = "high" →
      triggerAudioAlert a loaded
        = [AudioEvent.play, AudioEvent.pause, AudioEvent.play, AudioEvent.pause])
    ∧ (a.severity = "medium" ∨ a.severity = "low" →
      triggerAudioAlert a loaded = [AudioEvent.play]) := by
  refine ⟨?_, ?_, ?_⟩
  · intro hs
    rw [triggerAudioAlert, if_pos h, hs]
    decide
  · intro hs
    rw [triggerAudioAlert, if_pos h, hs]
    decide
  · intro hs
    rw [triggerAudioAlert, if_pos h]
    rcases hs with hs | hs <;> rw [hs] <;> decide

/-- Sample critical alert whose selected sound ("emergency") is loaded. -/
def criticalAlert : Alert :=
  { dayOldAlert with alert_id := "emergency_0_2", alert_type := "emergency",
                     severity := "critical" }

/-- C8 witness: a critical alert with the emergency sound loaded is played
three times with pauses. -/
theorem audioRepetitions_spec_witness :
    triggerAudioAlert criticalAlert ["emergency"]
      = [AudioEvent.play, AudioEvent.pause, AudioEvent.play, AudioEvent.pause,
         AudioEvent.play, AudioEvent.pause] :=
  (audioRepetitions_spec criticalAlert ["emergency"] (by decide)).1 (by decide)

/-- Person-class detection at a given centre, for concrete runs. -/
def personDetAt (x y : Int) : Detection :=
  { class_name := "person", confidence := (9 : ℚ)/10, bbox := (x, y, x + 10, y + 10),
    center := (x, y), timestamp := 0, track_id := none }

/-- Tick 1 of the id-reuse run: two distant persons, ids 1 and 2. -/
def cexTick1 : List (Nat × TrackInfo) × List Detection :=
  updateTracking [personDetAt 0 0, personDetAt 1000 0] [] 0

/-- Tick 2: only the second person reappears; track 1 exceeds the 5-second
inactivity timeout and is evicted. -/
def cexTick2 : List (Nat × TrackInfo) × List Detection :=
  updateTracking [personDetAt 1000 0] cexTick1.1 10

/-- Tick 3: a far-away person forces a fresh allocation. -/
def cexTick3 : List (Nat × TrackInfo) × List Detection :=
  updateTracking [personDetAt 5000 5000] cexTick2.1 11

/-- C1 counterexample: in the concrete three-tick run, the detection of
tick 1 at (1000,0) is assigned the freshly allocated id 2; after track 1 is
evicted for inactivity in tick 2, the unmatched detection of tick 3
(`findBestMatch` returns none, so a new track is allocated) again receives
id 2 — an id that is not strictly greater than every id allocated before,
and that is in fact reassigned to a different track. -/
theorem trackIdReuse_cex :
    cexTick1.2.map Detection.track_id = [some 1, some 2]
    ∧ cexTick2.1.map Prod.fst = [2]
    ∧ findBestMatch cexTick2.1 (personDetAt 5000 5000) = none
    ∧ cexTick3.2.map Detection.track_id = [some 2] := by
  decide

/-- C1 (amended): a newly allocated track (one whose detection matched no
live track) receives the id "current number of live tracks + 1", not a
fresh monotonic id; such an id can coincide with an id allocated earlier —
even with the id of a currently live track, whose record it then
overwrites. -/
theorem newTrackId_alloc :
    (∀ (tracks : List (Nat × TrackInfo)) (done : List Detection)
       (det : Detection) (now : Int),
        findBestMatch tracks det = none →
        (detStep now (tracks, done) det).2
          = done ++ [{ det with track_id := some (tracks.length + 1) }])
    ∧ ∃ (tracks : List (Nat × TrackInfo)) (det : Detection),
        findBestMatch tracks det = none
        ∧ tracks.length + 1 ∈ tracks.map Prod.fst := by
  constructor
  · intro tracks done det now h
    simp [detStep, h]
  · exact ⟨cexTick2.1, personDetAt 5000 5000, by decide, by decide⟩

/-- C1 witness: the very first detection fed to an empty tracker is
allocated id 1 = 0 + 1. -/
theorem newTrackId_alloc_witness :
    (detStep 0 (([] : List (Nat × TrackInfo)), ([] : List Detection))
        (personDetAt 0 0)).2
      = [{ personDetAt 0 0 with track_id := some 1 }] :=
  newTrackId_alloc.1 [] [] (personDetAt 0 0) 0 (by decide)

lemma loiterFrom_activity_type {tracks : List (Nat × TrackInfo)} {now lt : Int}
    {d : Detection} {a : Activity} (h : loiterFrom tracks now lt d = some a) :
    a.activity_type = "loitering" := by
  unfold loiterFrom at h
  split at h
  · cases h
  · split_ifs at h with h0
    all_goals try cases h
    all_goals
      split at h <;>
        first
          | (cases h <;> rfl)
          | (split_ifs at h with h1 <;> (cases h <;> rfl))

lemma rapidFrom_activity_type {tracks : List (Nat × TrackInfo)} {now : Int}
    {d : Detection} {a : Activity} (h : rapidFrom tracks now d = some a) :
    a.activity_type = "rapid_movement" := by
  unfold rapidFrom at h
  split at h
  · cases h
  · split_ifs at h with h0
    all_goals try cases h
    all_goals
      split at h <;>
        first
          | (cases h <;> rfl)
          | (split at h <;>
              first
                | (cases h <;> rfl)
                | (split_ifs at h with h1 <;>
                    first
                      | (cases h <;> rfl)
                      | (split at h <;>
                          first
                            | (cases h <;> rfl)
                            | (split_ifs at h with h2 <;> (cases h <;> rfl)))))

lemma filterMap_filter_type_eq_nil {persons : List Detection}
    {f : Detection → Option Activity} {ty other : String}
    (hf : ∀ d a, f d = some a → a.activity_type = other) (hne : other ≠ ty) :
    (persons.filterMap f).filter (fun a => a.activity_type == ty) = [] := by
  rw [List.filter_eq_nil_iff]
  intro a ha
  obtain ⟨d, _, hfd⟩ := List.mem_filterMap.mp ha
  rw [hf d a hfd]
  simp [hne]

/-- C6 counterexample: with a configured crowd threshold of 0 and no
detections, the person count (0) meets the threshold, yet no
`crowd_detected` signal is produced — computing the centroid of zero
centres raises `ZeroDivisionError` in the Python code, the surrounding
`except` swallows it, and the tick yields no crowd signal. -/
theorem crowdZeroThreshold_cex :
    (detectSuspiciousActivity [] [] 0 30 0).filter
        (fun a => a.activity_type == "crowd_detected") = []
    ∧ (0 : Nat) ≤ (([] : List Detection).filter fun d => d.class_name == "person").length := by
  decide

/-- C6 (amended): whenever the person count of the tick meets or exceeds
the crowd threshold AND at least one person detection is present, exactly
one `crowd_detected` signal is produced, located at the floor-division mean
of the person centres; when the count is below the threshold — or when
there is no person detection at all (reachable only with threshold 0, where
the centroid division fails) — no crowd signal is produced. -/
theorem crowdSignal_spec (dets : List Detection) (tracks : List (Nat × TrackInfo))
    (now loitering_time : Int) (crowd_threshold : Nat) :
    (crowd_threshold ≤ (dets.filter fun d => d.class_name == "person").length →
      (dets.filter fun d => d.class_name == "person") ≠ [] →
      (detectSuspiciousActivity dets tracks now loitering_time crowd_threshold).filter
          (fun a => a.activity_type == "crowd_detected")
        = [{ activity_type := "crowd_detected", confidence := (9 : ℚ)/10,
             location := crowdCenter (dets.filter fun d => d.class_name == "person"),
             timestamp := now }])
    ∧ ((dets.filter fun d => d.class_name == "person").length < crowd_threshold →
      (detectSuspiciousActivity dets tracks now loitering_time crowd_threshold).filter
          (fun a => a.activity_type == "crowd_detected") = [])
    ∧ ((dets.filter fun d => d.class_name == "person") = [] →
      (detectSuspiciousActivity dets tracks now loitering_time crowd_threshold).filter
          (fun a => a.activity_type == "crowd_detected") = []) := by
  have hloit : ((dets.filter fun d => d.class_name == "person").filterMap
      (loiterFrom tracks now loitering_time)).filter
        (fun a => a.activity_type == "crowd_detected") = [] :=
    filterMap_filter_type_eq_nil (fun _ _ hh => loiterFrom_activity_type hh) (by decide)
  have hrap : ((dets.filter fun d => d.class_name == "person").filterMap
      (rapidFrom tracks now)).filter
        (fun a => a.activity_type == "crowd_detected") = [] :=
    filterMap_filter_type_eq_nil (fun _ _ hh => rapidFrom_activity_type hh) (by decide)
  refine ⟨?_, ?_, ?_⟩
  · intro hge hne
    have hlen : ¬ (dets.filter fun d => d.class_name == "person").length = 0 :=
      fun hz => hne (List.length_eq_zero.mp hz)
    simp only [detectSuspiciousActivity]
    rw [if_pos hge, if_neg hlen, List.filter_append, List.filter_append, hloit, hrap]
    simp
  · intro hlt
    simp only [detectSuspiciousActivity]
    rw [if_neg (by omega), List.filter_append, hloit, hrap]
    rfl
  · intro hnil
    have hlen0 : (dets.filter fun d => d.class_name == "person").length = 0 := by
      rw [hnil]
      rfl
    simp only [detectSuspiciousActivity]
    by_cases hct : crowd_threshold ≤ (dets.filter fun d => d.class_name == "person").length
    · rw [if_pos hct, if_pos hlen0]
      exact hloit
    · rw [if_neg hct, List.filter_append, hloit, hrap]
      rfl

/-- C6 witness: two persons, crowd threshold 1 — one crowd signal at the
floor-division centroid. -/
theorem crowdSignal_spec_witness :
    (detectSuspiciousActivity [personDetAt 0 0, personDetAt 5 7] [] 0 30 1).filter
        (fun a => a.activity_type == "crowd_detected")
      = [{ activity_type := "crowd_detected", confidence := (9 : ℚ)/10,
           location := crowdCenter ([personDetAt 0 0, personDetAt 5 7].filter
             fun d => d.class_name == "person"),
           timestamp := 0 }] :=
  (crowdSignal_spec [personDetAt 0 0, personDetAt 5 7] [] 0 30 1).1 (by decide) (by decide)

lemma histFree_setTrack {l : List (Nat × TrackInfo)} {tid : Nat} {info : TrackInfo}
    (hl : ∀ p ∈ l, p.2.movement_history = none) (hi : info.movement_history = none) :
    ∀ p ∈ setTrack l tid info, p.2.movement_history = none := by
  induction l with
  | nil =>
    intro p hp
    simp only [setTrack, List.mem_singleton] at hp
    subst hp
    exact hi
  | cons q qs ih =>
    intro p hp
    unfold setTrack at hp
    split_ifs at hp with hq
    · rcases List.mem_cons.mp hp with rfl | hp'
      · exact hi
      · exact hl p (List.mem_cons_of_mem _ hp')
    · rcases List.mem_cons.mp hp with rfl | hp'
      · exact hl p (List.mem_cons_self _ _)
      · exact ih (fun r hr => hl r (List.mem_cons_of_mem _ hr)) p hp'

lemma histFree_updateMatched {l : List (Nat × TrackInfo)} {tid : Nat}
    {det : Detection} {now : Int}
    (hl : ∀ p ∈ l, p.2.movement_history = none) :
    ∀ p ∈ updateMatched l tid det now, p.2.movement_history = none := by
  intro p hp
  unfold updateMatched at hp
  obtain ⟨q, hq, hpq⟩ := List.mem_map.mp hp
  split_ifs at hpq
  · subst hpq
    exact hl q hq
  · subst hpq
    exact hl q hq

lemma histFree_detStep (now : Int) (st : List (Nat × TrackInfo) × List Detection)
    (det : Detection) (h1 : ∀ p ∈ st.1, p.2.movement_history = none) :
    ∀ p ∈ (detStep now st det).1, p.2.movement_history = none := by
  cases hfb : findBestMatch st.1 det with
  | none =>
    simp only [detStep, hfb]
    exact histFree_setTrack h1 rfl
  | some b =>
    obtain ⟨tid, d2⟩ := b
    by_cases h0 : tid = 0
    · simp only [detStep, hfb, h0, if_pos]
      exact histFree_setTrack h1 rfl
    · simp only [detStep, hfb, h0, if_false, ite_false]
      exact histFree_updateMatched h1

lemma histFree_foldl (now : Int) (dets : List Detection) :
    ∀ (st : List (Nat × TrackInfo) × List Detection),
      (∀ p ∈ st.1, p.2.movement_history = none) →
      ∀ p ∈ (dets.foldl (detStep now) st).1, p.2.movement_history = none := by
  induction dets with
  | nil =>
    intro st h
    simpa using h
  | cons d ds ih =>
    intro st h
    simp only [List.foldl_cons]
    exact ih _ (histFree_detStep now st d h)

lemma histFree_updateTracking (dets : List Detection)
    (tracks : List (Nat × TrackInfo)) (now : Int)
    (h : ∀ p ∈ tracks, p.2.movement_history = none) :
    ∀ p ∈ (updateTracking dets tracks now).1, p.2.movement_history = none := by
  intro p hp
  simp only [updateTracking] at hp
  exact histFree_foldl now dets (tracks, []) h p (List.mem_filter.mp hp).1

lemma histFree_updateRun (ticks : List (Int × List Detection)) :
    ∀ p ∈ updateRun ticks, p.2.movement_history = none := by
  suffices hgen : ∀ (ts : List (Int × List Detection)) (tr : List (Nat × TrackInfo)),
      (∀ p ∈ tr, p.2.movement_history = none) →
      ∀ p ∈ ts.foldl (fun tr t => (updateTracking t.2 tr t.1).1) tr,
        p.2.movement_history = none by
    exact hgen ticks [] (by simp)
  intro ts
  induction ts with
  | nil =>
    intro tr h
    simpa using h
  | cons t ts' ih =>
    intro tr h
    simp only [List.foldl_cons]
    exact ih _ (histFree_updateTracking t.2 tr t.1 h)

lemma lookupTrack_mem {l : List (Nat × TrackInfo)} {tid : Nat} {info : TrackInfo}
    (h : lookupTrack l tid = some info) : (tid, info) ∈ l := by
  induction l with
  | nil => cases h
  | cons q qs ih =>
    obtain ⟨q1, q2⟩ := q
    unfold lookupTrack at h
    split_ifs at h with hq
    · have h2 := Option.some.inj h
      subst h2
      subst hq
      exact List.mem_cons_self _ _
    · exact List.mem_cons_of_mem _ (ih h)

lemma rapidFrom_eq_none {tracks : List (Nat × TrackInfo)} {now : Int} {d : Detection}
    (h : ∀ p ∈ tracks, p.2.movement_history = none) :
    rapidFrom tracks now d = none := by
  unfold rapidFrom
  rcases hd : d.track_id with _ | tid
  · simp
  · simp only []
    by_cases h0 : tid = 0
    · simp [h0]
    · rcases hl : lookupTrack tracks tid with _ | info
      · simp [h0, hl]
      · have hnone : info.movement_history = none := h (tid, info) (lookupTrack_mem hl)
        simp [h0, hl, hnone]

lemma detect_filter_rapid_eq_nil {dets : List Detection}
    {tracks : List (Nat × TrackInfo)} {now lt : Int} {ct : Nat}
    (h : ∀ p ∈ tracks, p.2.movement_history = none) :
    (detectSuspiciousActivity dets tracks now lt ct).filter
      (fun a => a.activity_type == "rapid_movement") = [] := by
  have hloit : ((dets.filter fun d => d.class_name == "person").filterMap
      (loiterFrom tracks now lt)).filter
        (fun a => a.activity_type == "rapid_movement") = [] :=
    filterMap_filter_type_eq_nil (fun _ _ hh => loiterFrom_activity_type hh) (by decide)
  have hrapnil : (dets.filter fun d => d.class_name == "person").filterMap
      (rapidFrom tracks now) = [] := by
    rw [List.filterMap_eq_nil_iff]
    intro d _
    exact rapidFrom_eq_none h
  simp only [detectSuspiciousActivity]
  split_ifs with h1 h2
  · exact hloit
  · rw [List.filter_append, List.filter_append, hloit, hrapnil]
    simp
  · rw [List.filter_append, hloit, hrapnil]
    rfl

/-- C2: the rapid-movement rule is dead code.  `_update_tracking` never
writes the `movement_history` key it is supposed to maintain (the rolling
history of centres the spec describes), so after any sequence of tracker
updates from the initial empty table every live track is history-free, and
`detect_suspicious_activity` emits no `rapid_movement` signal for any
detections, clock value, loitering duration or crowd threshold. -/
theorem rapidMovement_neverEmitted (ticks : List (Int × List Detection))
    (dets : List Detection) (now loitering_time : Int) (crowd_threshold : Nat) :
    ((updateRun ticks).all fun p => p.2.movement_history.isNone) = true
    ∧ (detectSuspiciousActivity dets (updateRun ticks) now loitering_time
        crowd_threshold).filter (fun a => a.activity_type == "rapid_movement") = [] := by
  have hfree := histFree_updateRun ticks
  constructor
  · rw [List.all_eq_true]
    intro p hp
    simp [hfree p hp]
  · exact detect_filter_rapid_eq_nil hfree

lemma considerTrack_cases (det : Detection) (acc : Option (Nat × Int))
    (t : Nat × TrackInfo) :
    (¬ t.2.cls = det.class_name ∧ considerTrack det acc t = acc)
    ∨ (t.2.cls = det.class_name ∧ acc = none
        ∧ sqDist det.center t.2.last_center < 10000
        ∧ considerTrack det acc t = some (t.1, sqDist det.center t.2.last_center))
    ∨ (t.2.cls = det.class_name ∧ acc = none
        ∧ 10000 ≤ sqDist det.center t.2.last_center
        ∧ considerTrack det acc t = none)
    ∨ (∃ bid bd, t.2.cls = det.class_name ∧ acc = some (bid, bd)
        ∧ sqDist det.center t.2.last_center < bd
        ∧ sqDist det.center t.2.last_center < 10000
        ∧ considerTrack det acc t = some (t.1, sqDist det.center t.2.last_center))
    ∨ (∃ bid bd, t.2.cls = det.class_name ∧ acc = some (bid, bd)
        ∧ (bd ≤ sqDist det.center t.2.last_center
            ∨ 10000 ≤ sqDist det.center t.2.last_center)
        ∧ considerTrack det acc t = acc) := by
  by_cases hc : t.2.cls = det.class_name
  · rcases acc with _ | ⟨bid, bd⟩
    · by_cases hd : sqDist det.center t.2.last_center < 10000
      · exact Or.inr (Or.inl ⟨hc, rfl, hd, by simp [considerTrack, hc, hd]⟩)
      · exact Or.inr (Or.inr (Or.inl ⟨hc, rfl, by omega,
          by simp [considerTrack, hc, hd]⟩))
    · by_cases hd : sqDist det.center t.2.last_center < bd
          ∧ sqDist det.center t.2.last_center < 10000
      · exact Or.inr (Or.inr (Or.inr (Or.inl ⟨bid, bd, hc, rfl, hd.1, hd.2,
          by simp [considerTrack, hc, hd]⟩)))
      · have hc2 : bd ≤ sqDist det.center t.2.last_center
            ∨ 10000 ≤ sqDist det.center t.2.last_center := by omega
        exact Or.inr (Or.inr (Or.inr (Or.inr ⟨bid, bd, hc, rfl, hc2,
          by simp [considerTrack, hc, hd]⟩)))
  · exact Or.inl ⟨hc, by simp [considerTrack, hc]⟩

lemma considerTrack_foldl_spec (det : Detection) :
    ∀ (l : List (Nat × TrackInfo)) (acc : Option (Nat × Int)),
      (∀ tid d2, acc = some (tid, d2) → d2 < 10000) →
      ((l.foldl (considerTrack det) acc = none →
          acc = none ∧ ∀ p ∈ l, p.2.cls = det.class_name →
            10000 ≤ sqDist det.center p.2.last_center)
        ∧ ∀ tid d2, l.foldl (considerTrack det) acc = some (tid, d2) →
            d2 < 10000
            ∧ (acc = some (tid, d2)
                ∨ ∃ info, (tid, info) ∈ l ∧ info.cls = det.class_name
                    ∧ sqDist det.center info.last_center = d2)
            ∧ (∀ p ∈ l, p.2.cls = det.class_name →
                d2 ≤ sqDist det.center p.2.last_center)
            ∧ ∀ tid0 d0, acc = some (tid0, d0) → d2 ≤ d0) := by
  intro l
  induction l with
  | nil =>
    intro acc hacc
    constructor
    · intro h
      exact ⟨h, by simp⟩
    · intro tid d2 h
      simp only [List.foldl_nil] at h
      refine ⟨hacc _ _ h, Or.inl h, by simp, ?_⟩
      intro tid0 d0 h0
      rw [h0] at h
      have hd := congrArg Prod.snd (Option.some.inj h)
      simp at hd
      omega
  | cons t ts ih =>
    intro acc hacc
    simp only [List.foldl_cons]
    rcases considerTrack_cases det acc t with
        ⟨hc, hA⟩ | ⟨hc, hacc0, hd, hA⟩ | ⟨hc, hacc0, hd, hA⟩ |
        ⟨bid, bd, hc, hacc0, hd1, hd2, hA⟩ | ⟨bid, bd, hc, hacc0, hd, hA⟩
    · rw [hA]
      obtain ⟨ihn, ihs⟩ := ih acc hacc
      constructor
      · intro h
        obtain ⟨ha, hts⟩ := ihn h
        refine ⟨ha, ?_⟩
        intro p hp hpc
        rcases List.mem_cons.mp hp with rfl | hp'
        · exact absurd hpc hc
        · exact hts p hp' hpc
      · intro tid d2 h
        obtain ⟨h1, h2, h3, h4⟩ := ihs tid d2 h
        refine ⟨h1, ?_, ?_, h4⟩
        · rcases h2 with h2 | ⟨info, hmem, hcls, hsq⟩
          · exact Or.inl h2
          · exact Or.inr ⟨info, List.mem_cons_of_mem _ hmem, hcls, hsq⟩
        · intro p hp hpc
          rcases List.mem_cons.mp hp with rfl | hp'
          · exact absurd hpc hc
          · exact h3 p hp' hpc
    · rw [hA]
      subst hacc0
      have hacc' : ∀ tid d2,
          (some (t.1, sqDist det.center t.2.last_center) : Option (Nat × Int))
            = some (tid, d2) → d2 < 10000 := by
        intro tid d2 hh
        have h2 := congrArg Prod.snd (Option.some.inj hh)
        simp at h2
        omega
      obtain ⟨ihn, ihs⟩ := ih _ hacc'
      constructor
      · intro h
        obtain ⟨ha, _⟩ := ihn h
        cases ha
      · intro tid d2 h
        obtain ⟨h1, h2, h3, h4⟩ := ihs tid d2 h
        refine ⟨h1, ?_, ?_, ?_⟩
        · rcases h2 with h2 | ⟨info, hmem, hcls, hsq⟩
          · have hinj := Option.some.inj h2
            have htid := congrArg Prod.fst hinj
            have hsq2 := congrArg Prod.snd hinj
            simp at htid hsq2
            exact Or.inr ⟨t.2, by rw [← htid]; exact List.mem_cons_self _ _, hc,
              by omega⟩
          · exact Or.inr ⟨info, List.mem_cons_of_mem _ hmem, hcls, hsq⟩
        · intro p hp hpc
          rcases List.mem_cons.mp hp with rfl | hp'
          · exact h4 p.1 _ rfl
          · exact h3 p hp' hpc
        · intro tid0 d0 h0
          cases h0
    · rw [hA]
      subst hacc0
      have hacc' : ∀ tid d2, (none : Option (Nat × Int)) = some (tid, d2) →
          d2 < 10000 := by
        intro _ _ hh
        cases hh
      obtain ⟨ihn, ihs⟩ := ih _ hacc'
      constructor
      · intro h
        obtain ⟨_, hts⟩ := ihn h
        refine ⟨rfl, ?_⟩
        intro p hp hpc
        rcases List.mem_cons.mp hp with rfl | hp'
        · exact hd
        · exact hts p hp' hpc
      · intro tid d2 h
        obtain ⟨h1, h2, h3, _⟩ := ihs tid d2 h
        refine ⟨h1, ?_, ?_, ?_⟩
        · rcases h2 with h2 | ⟨info, hmem, hcls, hsq⟩
          · cases h2
          · exact Or.inr ⟨info, List.mem_cons_of_mem _ hmem, hcls, hsq⟩
        · intro p hp hpc
          rcases List.mem_cons.mp hp with rfl | hp'
          · omega
          · exact h3 p hp' hpc
        · intro tid0 d0 h0
          cases h0
    · rw [hA]
      have hacc' : ∀ tid d2,
          (some (t.1, sqDist det.center t.2.last_center) : Option (Nat × Int))
            = some (tid, d2) → d2 < 10000 := by
        intro tid d2 hh
        have h2 := congrArg Prod.snd (Option.some.inj hh)
        simp at h2
        omega
      obtain ⟨ihn, ihs⟩ := ih _ hacc'
      constructor
      · intro h
        obtain ⟨ha, _⟩ := ihn h
        cases ha
      · intro tid d2 h
        obtain ⟨h1, h2, h3, h4⟩ := ihs tid d2 h
        have hle : d2 ≤ sqDist det.center t.2.last_center := h4 t.1 _ rfl
        refine ⟨h1, ?_, ?_, ?_⟩
        · rcases h2 with h2 | ⟨info, hmem, hcls, hsq⟩
          · have hinj := Option.some.inj h2
            have htid := congrArg Prod.fst hinj
            have hsq2 := congrArg Prod.snd hinj
            simp at htid hsq2
            exact Or.inr ⟨t.2, by rw [← htid]; exact List.mem_cons_self _ _, hc,
              by omega⟩
          · exact Or.inr ⟨info, List.mem_cons_of_mem _ hmem, hcls, hsq⟩
        · intro p hp hpc
          rcases List.mem_cons.mp hp with rfl | hp'
          · exact hle
          · exact h3 p hp' hpc
        · intro tid0 d0 h0
          rw [hacc0] at h0
          have hd0 := congrArg Prod.snd (Option.some.inj h0)
          simp at hd0
          omega
    · rw [hA]
      obtain ⟨ihn, ihs⟩ := ih acc hacc
      constructor
      · intro h
        obtain ⟨ha, _⟩ := ihn h
        rw [hacc0] at ha
        cases ha
      · intro tid d2 h
        obtain ⟨h1, h2, h3, h4⟩ := ihs tid d2 h
        have hframe : d2 ≤ bd := h4 bid bd hacc0
        refine ⟨h1, ?_, ?_, h4⟩
        · rcases h2 with h2 | ⟨info, hmem, hcls, hsq⟩
          · exact Or.inl h2
          · exact Or.inr ⟨info, List.mem_cons_of_mem _ hmem, hcls, hsq⟩
        · intro p hp hpc
          rcases List.mem_cons.mp hp with rfl | hp'
          · rcases hd with hd | hd <;> omega
          · exact h3 p hp' hpc

/-- C3 (amended): the nearest-neighbour association of `_update_tracking`.
A detection matched to a track by `findBestMatch` lies at squared distance
strictly below 100² from that track's centre at processing time, and that
distance is minimal among all live tracks of the detection's class; a
detection that matches nothing (so that a new track is allocated) is at
squared distance at least 100² from every live track of its class.
Relative to the claim, the boundary is strict on the match side: at
distance exactly 100 the code allocates a new track (see
`assocBoundary_cex`). -/
theorem findBestMatch_spec (tracks : List (Nat × TrackInfo)) (det : Detection) :
    (∀ tid d2, findBestMatch tracks det = some (tid, d2) →
      ∃ info, (tid, info) ∈ tracks ∧ info.cls = det.class_name
        ∧ sqDist det.center info.last_center = d2 ∧ d2 < 10000
        ∧ ∀ p ∈ tracks, p.2.cls = det.class_name →
            d2 ≤ sqDist det.center p.2.last_center)
    ∧ (findBestMatch tracks det = none →
      ∀ p ∈ tracks, p.2.cls = det.class_name →
        10000 ≤ sqDist det.center p.2.last_center) := by
  obtain ⟨hn, hs⟩ := considerTrack_foldl_spec det tracks none
    (by intro _ _ h; cases h)
  constructor
  · intro tid d2 h
    obtain ⟨h1, h2, h3, _⟩ := hs tid d2 h
    rcases h2 with h2 | ⟨info, hmem, hcls, hsq⟩
    · cases h2
    · exact ⟨info, hmem, hcls, hsq, h1, h3⟩
  · intro h
    exact (hn h).2

/-- Single-track state for the association boundary run. -/
def assocTick1 : List (Nat × TrackInfo) × List Detection :=
  updateTracking [personDetAt 0 0] [] 0

/-- C3 counterexample: after tick 1 there is one live person track, id 1,
with centre (0,0); the next detection at (100,0) — Euclidean distance
exactly 100 to that track, i.e. squared distance exactly 100² — matches no
track (`findBestMatch` yields none) and is allocated new id 2, although
the claim requires a newly allocated detection to be at distance strictly
greater than the threshold from every live track of its class. -/
theorem assocBoundary_cex :
    assocTick1.1.map Prod.fst = [1]
    ∧ (assocTick1.1.map fun p => p.2.cls) = ["person"]
    ∧ (assocTick1.1.map fun p => p.2.last_center) = [(0, 0)]
    ∧ sqDist (personDetAt 100 0).center (0, 0) = 100 ^ 2
    ∧ findBestMatch assocTick1.1 (personDetAt 100 0) = none
    ∧ (updateTracking [personDetAt 100 0] assocTick1.1 1).2.map Detection.track_id
        = [some 2] := by
  decide

/-- C3 witness: a person detection at squared distance 25 from the single
live person track is matched to it, at the minimal distance. -/
theorem findBestMatch_spec_witness :
    ∃ info, (1, info) ∈ assocTick1.1 ∧ info.cls = (personDetAt 3 4).class_name
      ∧ sqDist (personDetAt 3 4).center info.last_center = 25 ∧ (25 : Int) < 10000
      ∧ ∀ p ∈ assocTick1.1, p.2.cls = (personDetAt 3 4).class_name →
          (25 : Int) ≤ sqDist (personDetAt 3 4).center p.2.last_center :=
  (findBestMatch_spec assocTick1.1 (personDetAt 3 4)).1 1 25 (by decide)

lemma confDesc_trans : ∀ (a b c : Detection), confDesc a b → confDesc b c → confDesc a c := by
  intro a b c hab hbc
  simp only [confDesc, decide_eq_true_eq] at *
  exact le_trans hbc hab

lemma confDesc_total : ∀ (a b : Detection), confDesc a b || confDesc b a := by
  intro a b
  rcases le_total a.confidence b.confidence with h | h <;> simp [confDesc, h]

/-- C7: `_filter_detections` returns exactly the detections whose
confidence reaches the threshold and whose class is admitted by the
allow-list (an empty allow-list admits everything) — in the input order —
and when strictly more than `max_detections` pass, it keeps exactly
`max_detections` of them, a sub-multiset of the passing detections in which
every kept detection has confidence at least that of every dropped one. -/
theorem filterDetections_spec (cfg : DetectorConfig) (dets : List Detection) :
    ((dets.filter (passesFilter cfg)).length ≤ cfg.max_detections →
      filterDetections cfg dets = dets.filter (passesFilter cfg))
    ∧ (cfg.max_detections < (dets.filter (passesFilter cfg)).length →
      (filterDetections cfg dets).length = cfg.max_detections
      ∧ ∃ dropped,
          (filterDetections cfg dets ++ dropped).Perm (dets.filter (passesFilter cfg))
          ∧ ∀ a ∈ filterDetections cfg dets, ∀ b ∈ dropped,
              b.confidence ≤ a.confidence) := by
  constructor
  · intro hle
    simp only [filterDetections]
    rw [if_neg (by omega)]
  · intro hgt
    have hif : filterDetections cfg dets
        = ((dets.filter (passesFilter cfg)).mergeSort confDesc).take
            cfg.max_detections := by
      simp only [filterDetections]
      rw [if_pos hgt]
    refine ⟨?_,
      ((dets.filter (passesFilter cfg)).mergeSort confDesc).drop cfg.max_detections,
      ?_, ?_⟩
    · rw [hif, List.length_take, List.length_mergeSort]
      omega
    · rw [hif, List.take_append_drop]
      exact List.mergeSort_perm _ _
    · have hs : ((dets.filter (passesFilter cfg)).mergeSort confDesc).Pairwise
          (fun a b => confDesc a b) :=
        List.sorted_mergeSort confDesc_trans confDesc_total _
      rw [hif]
      intro a ha b hb
      have hp := (List.pairwise_append.mp
        (by rw [List.take_append_drop]; exact hs)).2.2 a ha b hb
      simpa [confDesc, decide_eq_true_eq] using hp

/-- Person detection with a chosen confidence, for the filter run. -/
def wDet (c : ℚ) : Detection :=
  { personDetAt 0 0 with confidence := c }

/-- Configuration for the filter run: threshold 0.5, allow-list
["person"], at most one detection kept. -/
def wcfg : DetectorConfig :=
  { confidence_threshold := mkRat 1 2, max_detections := 1,
    classes_of_interest := ["person"] }

/-- Input for the filter run: two passing persons and one car (dropped by
the allow-list). -/
def wdets : List Detection :=
  [wDet (mkRat 6 10), wDet (mkRat 9 10),
   { personDetAt 0 0 with class_name := "car", confidence := mkRat 8 10 }]

/-- C7 witness: with two passing detections and a maximum of one, the
filter keeps exactly one detection of maximal confidence. -/
theorem filterDetections_spec_witness :
    (filterDetections wcfg wdets).length = wcfg.max_detections
    ∧ ∃ dropped,
        (filterDetections wcfg wdets ++ dropped).Perm (wdets.filter (passesFilter wcfg))
        ∧ ∀ a ∈ filterDetections wcfg wdets, ∀ b ∈ dropped,
            b.confidence ≤ a.confidence :=
  (filterDetections_spec wcfg wdets).2 (by decide)

/-- Justification of the squared-distance embedding: for an integer squared
distance, comparing the Euclidean distance against the tracker's threshold
100 is exactly comparing the square against 100 ^ 2 = 10000. -/
lemma sqrt_lt_hundred (a : Int) : Real.sqrt (a : ℝ) < 100 ↔ a < 10000 := by
  rw [Real.sqrt_lt' (by norm_num : (0:ℝ) < 100)]
  constructor
  · intro h
    have h' : (a:ℝ) < 10000 := by nlinarith
    exact_mod_cast h'
  · intro h
    have h' : (a:ℝ) < 10000 := by exact_mod_cast h
    nlinarith

/-- Justification of the integer rapid-movement test: for nonnegative
integer squared segment lengths, `sqrtSumGt200` decides exactly whether the
sum of the two Euclidean segment lengths exceeds the hard-coded movement
threshold 200. -/
lemma sqrtSumGt200_iff (a b : Int) (ha : 0 ≤ a) (hb : 0 ≤ b) :
    sqrtSumGt200 a b = true
      ↔ 200 < Real.sqrt (a : ℝ) + Real.sqrt (b : ℝ) := by
  have ha' : (0:ℝ) ≤ (a:ℝ) := by exact_mod_cast ha
  have hb' : (0:ℝ) ≤ (b:ℝ) := by exact_mod_cast hb
  have hx : 0 ≤ Real.sqrt (a:ℝ) := Real.sqrt_nonneg _
  have hy : 0 ≤ Real.sqrt (b:ℝ) := Real.sqrt_nonneg _
  have hxa : Real.sqrt (a:ℝ) ^ 2 = (a:ℝ) := Real.sq_sqrt ha'
  have hyb : Real.sqrt (b:ℝ) ^ 2 = (b:ℝ) := Real.sq_sqrt hb'
  have hxy : 0 ≤ Real.sqrt (a:ℝ) * Real.sqrt (b:ℝ) := mul_nonneg hx hy
  have h4 : (2 * (Real.sqrt (a:ℝ) * Real.sqrt (b:ℝ))) ^ 2 = 4 * ((a:ℝ) * (b:ℝ)) := by
    rw [mul_pow, mul_pow, hxa, hyb]
    ring
  simp only [sqrtSumGt200, Bool.or_eq_true, decide_eq_true_eq]
  constructor
  · rintro (h | h)
    · have habR : (40000:ℝ) < (a:ℝ) + (b:ℝ) := by exact_mod_cast h
      have hsq : (200:ℝ) ^ 2 < (Real.sqrt (a:ℝ) + Real.sqrt (b:ℝ)) ^ 2 := by
        nlinarith
      exact lt_of_pow_lt_pow_left 2 (add_nonneg hx hy) hsq
    · have hcR : ((40000:ℝ) - ((a:ℝ) + (b:ℝ))) ^ 2 < 4 * ((a:ℝ) * (b:ℝ)) := by
        exact_mod_cast h
      rw [← h4] at hcR
      by_contra hle
      push_neg at hle
      have hkey : 0 ≤ (200 - (Real.sqrt (a:ℝ) + Real.sqrt (b:ℝ)))
          * (Real.sqrt (a:ℝ) + Real.sqrt (b:ℝ)) :=
        mul_nonneg (by linarith) (add_nonneg hx hy)
      have hc2 : 0 ≤ (40000:ℝ) - ((a:ℝ) + (b:ℝ))
          - 2 * (Real.sqrt (a:ℝ) * Real.sqrt (b:ℝ)) := by nlinarith
      have hc3 : 0 ≤ (40000:ℝ) - ((a:ℝ) + (b:ℝ))
          + 2 * (Real.sqrt (a:ℝ) * Real.sqrt (b:ℝ)) := by nlinarith
      nlinarith [mul_nonneg hc2 hc3]
  · intro h
    by_cases hab : 40000 < a + b
    · exact Or.inl hab
    · right
      have habR : (a:ℝ) + (b:ℝ) ≤ 40000 := by
        have hab' : a + b ≤ 40000 := by omega
        exact_mod_cast hab'
      have h2xy : (40000:ℝ) - ((a:ℝ) + (b:ℝ))
          < 2 * (Real.sqrt (a:ℝ) * Real.sqrt (b:ℝ)) := by
        nlinarith [mul_pos
          (show (0:ℝ) < Real.sqrt (a:ℝ) + Real.sqrt (b:ℝ) - 200 by linarith)
          (show (0:ℝ) < Real.sqrt (a:ℝ) + Real.sqrt (b:ℝ) + 200 by linarith)]
      have hcnn : (0:ℝ) ≤ (40000:ℝ) - ((a:ℝ) + (b:ℝ)) := by linarith
      have hfin : ((40000:ℝ) - ((a:ℝ) + (b:ℝ))) ^ 2
          < (2 * (Real.sqrt (a:ℝ) * Real.sqrt (b:ℝ))) ^ 2 := by
        nlinarith [mul_pos (sub_pos.mpr h2xy)
          (show (0:ℝ) < 2 * (Real.sqrt (a:ℝ) * Real.sqrt (b:ℝ))
              + ((40000:ℝ) - ((a:ℝ) + (b:ℝ))) by linarith)]
      rw [h4] at hfin
      exact_mod_cast hfin
